import Mathlib

/-
Shallow embedding of the transaction ledger core of the Personal Finance
Tracker repository (src/11/transaction.py and src/11/finance_tracker.py).

Python strings are modelled as Lean strings; str.strip, str.title and
str.upper are modelled character by character over the ASCII range,
matching the CPython behaviour on ASCII input (the only input the
repository and the claims exercise).  Python float amounts are modelled as
exact rationals.  The JSON file persistence (save_transactions and
load_transactions) performs no computation on the in-memory transaction
list, so every ledger operation is modelled as a pure function on the list
of transactions.  Python dictionaries returned by the aggregation methods
are modelled as association lists in insertion order.
-/

/-! ### ASCII character operations (CPython semantics) -/

/-- ASCII uppercase conversion of one character, as CPython applies to each
character of a string in str.upper: a lowercase letter (code 97-122) is
shifted down by 32, every other character is unchanged. -/
def pyUpperChar (c : Char) : Char :=
  if 97 ≤ c.toNat ∧ c.toNat ≤ 122 then Char.ofNat (c.toNat - 32) else c

/-- ASCII lowercase conversion of one character (CPython str.lower on one
character): an uppercase letter (code 65-90) is shifted up by 32. -/
def pyLowerChar (c : Char) : Char :=
  if 65 ≤ c.toNat ∧ c.toNat ≤ 90 then Char.ofNat (c.toNat + 32) else c

/-- ASCII letter test, as CPython uses to delimit words in str.title. -/
def pyIsAlpha (c : Char) : Bool :=
  decide ((65 ≤ c.toNat ∧ c.toNat ≤ 90) ∨ (97 ≤ c.toNat ∧ c.toNat ≤ 122))

/-- ASCII whitespace test of CPython str.isspace, used by str.strip:
space (32), tab (9), newline (10), vertical tab (11), form feed (12),
carriage return (13). -/
def pyIsSpace (c : Char) : Bool :=
  decide (c.toNat = 32 ∨ (9 ≤ c.toNat ∧ c.toNat ≤ 13))

/-- One character of str.title output: an ASCII letter is lowercased when
the previous character was a letter and uppercased otherwise; any other
character is unchanged.  The flag b records whether the previous character
was a letter. -/
def titleChar (b : Bool) (c : Char) : Char :=
  if pyIsAlpha c then (if b then pyLowerChar c else pyUpperChar c) else c

/-- CPython str.title over a character list: map titleChar across the list,
threading the previous-character-was-a-letter flag. -/
def titleGo (b : Bool) : List Char → List Char
  | [] => []
  | c :: cs => titleChar b c :: titleGo (pyIsAlpha c) cs

/-- CPython str.strip over a character list: drop whitespace from the
front, then from the back. -/
def stripList (l : List Char) : List Char :=
  List.rdropWhile pyIsSpace (l.dropWhile pyIsSpace)

/-- Python str.strip. -/
def pyStrip (s : String) : String := ⟨stripList s.data⟩

/-- Python str.title. -/
def pyTitle (s : String) : String := ⟨titleGo false s.data⟩

/-- Python str.upper. -/
def pyUpper (s : String) : String := ⟨s.data.map pyUpperChar⟩

/-- Python truthiness of a string: the empty string is falsy. -/
def strTruthy (s : String) : Bool := !s.data.isEmpty

/-- Python truthiness of an optional string argument: None and the empty
string are falsy. -/
def optTruthy : Option String → Bool
  | none => false
  | some s => strTruthy s

/-! ### Transaction (transaction.py) -/

/-- A validated transaction (the attributes set by Transaction.__init__).
The id attribute is only attached later by the ledger or by from_dict; the
Python hasattr checks are modelled by the Option. -/
structure Transaction where
  id : Option Int
  amount : ℚ
  description : String
  category : String
  is_income : Bool
  date : String
  currency : String
  room : String
  deriving DecidableEq

/-- Transaction.__init__ of transaction.py.  The date argument is the
optional constructor parameter; now stands for datetime.now().isoformat(),
used when date is None or empty (Python: date or datetime.now().isoformat()).
Raised ValueError messages become error values. -/
def Transaction.init (amount : ℚ) (description category : String)
    (is_income : Bool) (date : Option String) (now : String)
    (currency room : String) : Except String Transaction :=
  if amount ≤ 0 then .error "Amount must be positive"
  else
    let d := pyStrip description
    let c := pyTitle (pyStrip category)
    let dt := match date with
      | some s => if s.data.isEmpty then now else s
      | none => now
    let cu := pyUpper currency
    let r := pyTitle (pyStrip room)
    if d.data.isEmpty then .error "Description cannot be empty"
    else if c.data.isEmpty then .error "Category cannot be empty"
    else if cu ≠ "USD" ∧ cu ≠ "INR" then .error "Currency must be USD or INR"
    else if r.data.isEmpty then .error "Room cannot be empty"
    else .ok { id := none, amount := amount, description := d, category := c,
               is_income := is_income, date := dt, currency := cu, room := r }

/-- The dictionary produced by Transaction.to_dict (and consumed by
Transaction.from_dict).  All eight keys are always present in a to_dict
output; the id value none models the JSON null that to_dict emits for a
transaction without an id attribute (a missing or null id is falsy in
Python, like the id value 0). -/
structure TxDict where
  id : Option Int
  amount : ℚ
  description : String
  category : String
  is_income : Bool
  date : String
  currency : String
  room : String
  deriving DecidableEq

/-- Transaction.to_dict. -/
def Transaction.to_dict (t : Transaction) : TxDict :=
  { id := t.id, amount := t.amount, description := t.description,
    category := t.category, is_income := t.is_income, date := t.date,
    currency := t.currency, room := t.room }

/-- Transaction.from_dict: rebuild through the constructor, then reattach
the id when the stored id is present and truthy (nonzero).  The now
argument again stands for datetime.now().isoformat() inside the
constructor call. -/
def Transaction.from_dict (d : TxDict) (now : String) : Except String Transaction :=
  match Transaction.init d.amount d.description d.category d.is_income
      (some d.date) now d.currency d.room with
  | .error e => .error e
  | .ok t =>
      .ok (match d.id with
        | some k => if k ≠ 0 then { t with id := some k } else t
        | none => t)

/-! ### Ledger operations (finance_tracker.py)

The ledger state is the in-memory list FinanceTracker.transactions; the
save_transactions call at the end of each mutator only mirrors that list to
disk and is not modelled. -/

namespace FinanceTracker

/-- FinanceTracker.add_transaction: sets transaction.id to
len(self.transactions) + 1 and appends.  Returns the new list and the
appended transaction (whose assigned id is observable on it). -/
def add_transaction (ts : List Transaction) (t : Transaction) :
    List Transaction × Transaction :=
  let t2 := { t with id := some ((ts.length : Int) + 1) }
  (ts ++ [t2], t2)

/-- FinanceTracker.delete_transaction: removes the first transaction whose
id attribute is present and equals the argument; returns the new list and
whether a match was found. -/
def delete_transaction : List Transaction → Int → List Transaction × Bool
  | [], _ => ([], false)
  | t :: ts, tid =>
      if t.id = some tid then (ts, true)
      else
        let p := delete_transaction ts tid
        (t :: p.1, p.2)

/-- FinanceTracker.get_transaction_by_id: first transaction whose id
attribute is present and equals the argument, None when there is none. -/
def get_transaction_by_id (ts : List Transaction) (tid : Int) : Option Transaction :=
  ts.find? (fun t => t.id = some tid)

/-- FinanceTracker.update_transaction: replaces the first transaction whose
id matches, forcing the replacement to carry that id. -/
def update_transaction : List Transaction → Int → Transaction → List Transaction × Bool
  | [], _, _ => ([], false)
  | t :: ts, tid, u =>
      if t.id = some tid then ({ u with id := some tid } :: ts, true)
      else
        let p := update_transaction ts tid u
        (t :: p.1, p.2)

/-- FinanceTracker.reset_all_transactions: clears the list (and returns True). -/
def reset_all_transactions : List Transaction := []

/-- FinanceTracker.get_transactions: Python tests the room argument for
truthiness; a truthy room filters by literal equality with the stored room
field, otherwise a copy of the whole list is returned. -/
def get_transactions (ts : List Transaction) (room : Option String) : List Transaction :=
  match room with
  | some r => if r.data.isEmpty then ts else ts.filter (fun t => t.room = r)
  | none => ts

/-- FinanceTracker.get_rooms: list(set(rooms)) then sorted, with the
default ["Personal"] when there are no transactions.  The Python set
collapses duplicates in unspecified order and sorted then canonicalizes;
dedup followed by insertion sort produces the same sorted duplicate-free
list. -/
def get_rooms (ts : List Transaction) : List String :=
  let rooms := (ts.map Transaction.room).dedup
  if rooms.isEmpty then ["Personal"] else rooms.insertionSort (· ≤ ·)

/-- The internal dictionary balances = \x7b"USD": 0.0, "INR": 0.0\x7d used
by the three aggregation methods. -/
structure Balances where
  usd : ℚ
  inr : ℚ
  deriving DecidableEq

/-- The initial \x7b"USD": 0.0, "INR": 0.0\x7d dictionary. -/
def balStart : Balances := ⟨0, 0⟩

/-- balances[cur] += x.  For a key other than USD or INR Python would raise
KeyError; transactions validated by the constructor always carry USD or
INR, and the claims only exercise those keys, so the unreachable branch
leaves the dictionary unchanged. -/
def balAdd (b : Balances) (cur : String) (x : ℚ) : Balances :=
  if cur = "USD" then { b with usd := b.usd + x }
  else if cur = "INR" then { b with inr := b.inr + x }
  else b

/-- balances[cur]: lookup of one of the two keys (KeyError otherwise,
modelled as 0 on the unreachable branch). -/
def balLookup (b : Balances) (cur : String) : ℚ :=
  if cur = "USD" then b.usd else if cur = "INR" then b.inr else 0

/-- The shared currency test of the aggregators: not currency or
t.currency == currency (equivalently, the negation of the skip test
currency and t.currency != currency in get_balance). -/
def curOk (filt : Option String) (cur : String) : Bool :=
  !optTruthy filt || cur = filt.getD ""

/-- One loop iteration of FinanceTracker.get_balance: income adds the
amount to the entry of the transaction currency, expense subtracts it; a
truthy currency filter skips transactions of other currencies. -/
def balanceStep (filt : Option String) (b : Balances) (t : Transaction) : Balances :=
  if curOk filt t.currency then
    (if t.is_income then balAdd b t.currency t.amount
     else balAdd b t.currency (-t.amount))
  else b

/-- One loop iteration of FinanceTracker.get_total_income. -/
def incomeStep (filt : Option String) (b : Balances) (t : Transaction) : Balances :=
  if t.is_income && curOk filt t.currency then balAdd b t.currency t.amount else b

/-- One loop iteration of FinanceTracker.get_total_expenses. -/
def expenseStep (filt : Option String) (b : Balances) (t : Transaction) : Balances :=
  if !t.is_income && curOk filt t.currency then balAdd b t.currency t.amount else b

/-- The shared for-loop shape of the three aggregation methods: fold the
per-transaction step over the scoped transaction list. -/
def loopGo (step : Balances → Transaction → Balances) (b : Balances) :
    List Transaction → Balances
  | [] => b
  | t :: ts => loopGo step (step b t) ts

/-- The loop of FinanceTracker.get_balance. -/
def balanceGo (filt : Option String) (b : Balances) (l : List Transaction) : Balances :=
  loopGo (balanceStep filt) b l

/-- The loop of FinanceTracker.get_total_income. -/
def incomeGo (filt : Option String) (b : Balances) (l : List Transaction) : Balances :=
  loopGo (incomeStep filt) b l

/-- The loop of FinanceTracker.get_total_expenses. -/
def expenseGo (filt : Option String) (b : Balances) (l : List Transaction) : Balances :=
  loopGo (expenseStep filt) b l

/-- The shared return expression of the aggregators: the full two-key
dictionary for a falsy currency argument, the single-key dictionary
\x7bcurrency: totals[currency]\x7d for a truthy one. -/
def finishTotals (b : Balances) (filt : Option String) : List (String × ℚ) :=
  if optTruthy filt then [(filt.getD "", balLookup b (filt.getD ""))]
  else [("USD", b.usd), ("INR", b.inr)]

/-- The shared first line of the aggregators:
self.get_transactions(room) if room else self.transactions. -/
def roomScope (ts : List Transaction) (room : Option String) : List Transaction :=
  if optTruthy room then get_transactions ts room else ts

/-- FinanceTracker.get_balance. -/
def get_balance (ts : List Transaction) (room filt : Option String) : List (String × ℚ) :=
  finishTotals (balanceGo filt balStart (roomScope ts room)) filt

/-- FinanceTracker.get_total_income. -/
def get_total_income (ts : List Transaction) (room filt : Option String) : List (String × ℚ) :=
  finishTotals (incomeGo filt balStart (roomScope ts room)) filt

/-- FinanceTracker.get_total_expenses. -/
def get_total_expenses (ts : List Transaction) (room filt : Option String) : List (String × ℚ) :=
  finishTotals (expenseGo filt balStart (roomScope ts room)) filt

/-- The value stored under a key of a returned dictionary (0 when the key
is absent); used to state properties of the aggregation results. -/
def dictVal (l : List (String × ℚ)) (k : String) : ℚ :=
  (l.lookup k).getD 0

/-- Ledger states reachable from the empty ledger of a fresh data file by
the mutating operations of FinanceTracker. -/
inductive Reachable : List Transaction → Prop where
  | empty : Reachable []
  | add (ts : List Transaction) (t : Transaction) :
      Reachable ts → Reachable (add_transaction ts t).1
  | delete (ts : List Transaction) (tid : Int) :
      Reachable ts → Reachable (delete_transaction ts tid).1
  | update (ts : List Transaction) (tid : Int) (u : Transaction) :
      Reachable ts → Reachable (update_transaction ts tid u).1
  | reset (ts : List Transaction) :
      Reachable ts → Reachable reset_all_transactions

end FinanceTracker

/-- A sample validated transaction for concrete instances, matching what
Transaction.init produces on already normalized arguments. -/
def mkTx (desc : String) : Transaction :=
  { id := none, amount := 1, description := desc, category := "Food",
    is_income := false, date := "2024-01-01T00:00:00", currency := "USD",
    room := "Personal" }

/-! ### Lemmas about the ASCII string operations -/

theorem charToNat_ofNat (m : Nat) (h : m < 55296) : (Char.ofNat m).toNat = m := by
  have hv : m.isValidChar := Or.inl h
  rw [Char.ofNat, dif_pos hv]
  rfl

theorem toNat_pyUpperChar (c : Char) :
    (pyUpperChar c).toNat =
      if 97 ≤ c.toNat ∧ c.toNat ≤ 122 then c.toNat - 32 else c.toNat := by
  unfold pyUpperChar
  split
  · next h => exact charToNat_ofNat _ (by omega)
  · rfl

theorem toNat_pyLowerChar (c : Char) :
    (pyLowerChar c).toNat =
      if 65 ≤ c.toNat ∧ c.toNat ≤ 90 then c.toNat + 32 else c.toNat := by
  unfold pyLowerChar
  split
  · next h => exact charToNat_ofNat _ (by omega)
  · rfl

theorem pyUpperChar_idem (c : Char) : pyUpperChar (pyUpperChar c) = pyUpperChar c := by
  by_cases h : 97 ≤ c.toNat ∧ c.toNat ≤ 122
  · have h2 : ¬(97 ≤ (pyUpperChar c).toNat ∧ (pyUpperChar c).toNat ≤ 122) := by
      rw [toNat_pyUpperChar, if_pos h]
      omega
    conv_lhs => rw [pyUpperChar.eq_def]
    rw [if_neg h2]
  · have hc : pyUpperChar c = c := by rw [pyUpperChar, if_neg h]
    rw [hc, hc]

theorem pyLowerChar_idem (c : Char) : pyLowerChar (pyLowerChar c) = pyLowerChar c := by
  by_cases h : 65 ≤ c.toNat ∧ c.toNat ≤ 90
  · have h2 : ¬(65 ≤ (pyLowerChar c).toNat ∧ (pyLowerChar c).toNat ≤ 90) := by
      rw [toNat_pyLowerChar, if_pos h]
      omega
    conv_lhs => rw [pyLowerChar.eq_def]
    rw [if_neg h2]
  · have hc : pyLowerChar c = c := by rw [pyLowerChar, if_neg h]
    rw [hc, hc]

theorem pyIsAlpha_pyUpperChar (c : Char) : pyIsAlpha (pyUpperChar c) = pyIsAlpha c := by
  simp only [pyIsAlpha, toNat_pyUpperChar]
  rw [decide_eq_decide]
  split <;> omega

theorem pyIsAlpha_pyLowerChar (c : Char) : pyIsAlpha (pyLowerChar c) = pyIsAlpha c := by
  simp only [pyIsAlpha, toNat_pyLowerChar]
  rw [decide_eq_decide]
  split <;> omega

theorem pyIsSpace_pyUpperChar (c : Char) : pyIsSpace (pyUpperChar c) = pyIsSpace c := by
  simp only [pyIsSpace, toNat_pyUpperChar]
  rw [decide_eq_decide]
  split <;> omega

theorem pyIsSpace_pyLowerChar (c : Char) : pyIsSpace (pyLowerChar c) = pyIsSpace c := by
  simp only [pyIsSpace, toNat_pyLowerChar]
  rw [decide_eq_decide]
  split <;> omega

theorem pyIsSpace_titleChar (b : Bool) (c : Char) :
    pyIsSpace (titleChar b c) = pyIsSpace c := by
  unfold titleChar
  split
  · cases b <;> simp [pyIsSpace_pyUpperChar, pyIsSpace_pyLowerChar]
  · rfl

theorem pyIsAlpha_titleChar (b : Bool) (c : Char) :
    pyIsAlpha (titleChar b c) = pyIsAlpha c := by
  unfold titleChar
  split
  · cases b <;> simp [pyIsAlpha_pyUpperChar, pyIsAlpha_pyLowerChar]
  · rfl

theorem titleChar_idem (b : Bool) (c : Char) :
    titleChar b (titleChar b c) = titleChar b c := by
  by_cases h : pyIsAlpha c = true
  · cases b with
    | false =>
        have ht : titleChar false c = pyUpperChar c := by simp [titleChar, h]
        have h2 : pyIsAlpha (pyUpperChar c) = true := by
          rw [pyIsAlpha_pyUpperChar]; exact h
        rw [ht]
        simp [titleChar, h2, pyUpperChar_idem]
    | true =>
        have ht : titleChar true c = pyLowerChar c := by simp [titleChar, h]
        have h2 : pyIsAlpha (pyLowerChar c) = true := by
          rw [pyIsAlpha_pyLowerChar]; exact h
        rw [ht]
        simp [titleChar, h2, pyLowerChar_idem]
  · have ht : titleChar b c = c := by simp [titleChar, h]
    rw [ht]
    exact ht

theorem titleGo_idem (l : List Char) : ∀ b, titleGo b (titleGo b l) = titleGo b l := by
  induction l with
  | nil => intro b; rfl
  | cons c cs ih =>
      intro b
      rw [titleGo]
      rw [titleGo]
      rw [titleChar_idem, pyIsAlpha_titleChar, ih]

theorem titleGo_map_pyIsSpace (l : List Char) :
    ∀ b, (titleGo b l).map pyIsSpace = l.map pyIsSpace := by
  induction l with
  | nil => intro b; rfl
  | cons c cs ih =>
      intro b
      rw [titleGo, List.map_cons, pyIsSpace_titleChar, ih, List.map_cons]

/-- A character list with no leading and no trailing whitespace (the shape
of str.strip output). -/
def CleanL (l : List Char) : Prop :=
  (∀ a ∈ l.head?, pyIsSpace a = false) ∧ (∀ a ∈ l.getLast?, pyIsSpace a = false)

theorem dropWhile_eq_self_of_head (p : Char → Bool) (l : List Char)
    (h : ∀ a ∈ l.head?, p a = false) : l.dropWhile p = l := by
  cases l with
  | nil => rfl
  | cons c cs =>
      have : p c = false := h c rfl
      simp [List.dropWhile_cons, this]

theorem rdropWhile_eq_self_of_getLast (p : Char → Bool) (l : List Char)
    (h : ∀ a ∈ l.getLast?, p a = false) : List.rdropWhile p l = l := by
  rw [List.rdropWhile, dropWhile_eq_self_of_head p l.reverse, List.reverse_reverse]
  intro a ha
  rw [List.head?_reverse] at ha
  exact h a ha

theorem cleanL_stripList (l : List Char) : CleanL (stripList l) := by
  constructor
  · intro a ha
    unfold stripList at ha
    rcases h : (List.rdropWhile pyIsSpace (l.dropWhile pyIsSpace)) with _ | ⟨c, cs⟩
    · rw [h] at ha; cases ha
    · rw [h] at ha
      have hpre := List.rdropWhile_prefix pyIsSpace (l.dropWhile pyIsSpace)
      rw [h] at hpre
      obtain ⟨t, ht⟩ := hpre
      have hhd : (l.dropWhile pyIsSpace).head? = some c := by
        rw [← ht]
        simp
      have hw := List.head?_dropWhile_not pyIsSpace l
      rw [hhd] at hw
      have h3 : pyIsSpace c = false := hw
      simp at ha
      subst ha
      exact h3
  · intro a ha
    unfold stripList at ha
    rw [List.rdropWhile] at ha
    rw [List.getLast?_reverse] at ha
    have hw := List.head?_dropWhile_not pyIsSpace (l.dropWhile pyIsSpace).reverse
    rw [ha] at hw
    exact hw

theorem stripList_eq_self_of_clean (l : List Char) (h : CleanL l) :
    stripList l = l := by
  unfold stripList
  rw [dropWhile_eq_self_of_head pyIsSpace l h.1,
      rdropWhile_eq_self_of_getLast pyIsSpace l h.2]

theorem stripList_idem (l : List Char) : stripList (stripList l) = stripList l :=
  stripList_eq_self_of_clean _ (cleanL_stripList l)

theorem head?_titleGo (b : Bool) (l : List Char) :
    (titleGo b l).head? = l.head?.map (titleChar b) := by
  cases l <;> rfl

theorem getLast?_titleGo_pyIsSpace (b : Bool) (l : List Char) :
    (titleGo b l).getLast?.map pyIsSpace = l.getLast?.map pyIsSpace := by
  rw [← List.getLast?_map, ← List.getLast?_map, titleGo_map_pyIsSpace]

theorem cleanL_titleGo (b : Bool) (l : List Char) (h : CleanL l) :
    CleanL (titleGo b l) := by
  constructor
  · intro a ha
    rw [head?_titleGo] at ha
    cases hl : l.head? with
    | none => rw [hl] at ha; cases ha
    | some c =>
        rw [hl] at ha
        simp at ha
        rw [← ha, pyIsSpace_titleChar]
        exact h.1 c hl
  · intro a ha
    have := getLast?_titleGo_pyIsSpace b l
    rw [ha] at this
    cases hl : l.getLast? with
    | none => rw [hl] at this; cases this
    | some c =>
        rw [hl] at this
        simp at this
        rw [this]
        exact h.2 c hl

theorem titleGo_eq_nil_iff (b : Bool) (l : List Char) :
    titleGo b l = [] ↔ l = [] := by
  cases l <;> simp [titleGo]

/-- Normalization with strip then title is idempotent (str.title of an
already stripped-and-titled string is itself, and stripping it changes
nothing). -/
theorem strip_title_strip (s : String) :
    pyStrip (pyTitle (pyStrip s)) = pyTitle (pyStrip s) := by
  show String.mk (stripList (titleGo false (stripList s.data))) = _
  rw [stripList_eq_self_of_clean _ (cleanL_titleGo false _ (cleanL_stripList s.data))]
  rfl

theorem title_strip_idem (s : String) :
    pyTitle (pyStrip (pyTitle (pyStrip s))) = pyTitle (pyStrip s) := by
  rw [strip_title_strip]
  show String.mk (titleGo false (titleGo false (stripList s.data))) = _
  rw [titleGo_idem]
  rfl

theorem pyStrip_idem (s : String) : pyStrip (pyStrip s) = pyStrip s := by
  show String.mk (stripList (stripList s.data)) = _
  rw [stripList_idem]
  rfl

theorem pyTitle_data_isEmpty (s : String) :
    (pyTitle s).data.isEmpty = s.data.isEmpty := by
  show (titleGo false s.data).isEmpty = _
  cases s.data <;> simp [titleGo]

/-! ### Lemmas about the aggregation loops -/

namespace FinanceTracker

theorem loopGo_cons (step : Balances → Transaction → Balances) (b : Balances)
    (t : Transaction) (ts : List Transaction) :
    loopGo step b (t :: ts) = loopGo step (step b t) ts := rfl

theorem balAdd_shift (b : Balances) (cur : String) (x : ℚ) :
    balAdd b cur x = ⟨b.usd + (balAdd balStart cur x).usd, b.inr + (balAdd balStart cur x).inr⟩ := by
  unfold balAdd balStart
  split_ifs <;> simp

theorem balanceStep_shift (filt : Option String) (b : Balances) (t : Transaction) :
    balanceStep filt b t =
      ⟨b.usd + (balanceStep filt balStart t).usd, b.inr + (balanceStep filt balStart t).inr⟩ := by
  unfold balanceStep
  split_ifs with h1 h2
  · exact balAdd_shift b t.currency t.amount
  · exact balAdd_shift b t.currency (-t.amount)
  · cases b
    simp [balStart]

theorem incomeStep_shift (filt : Option String) (b : Balances) (t : Transaction) :
    incomeStep filt b t =
      ⟨b.usd + (incomeStep filt balStart t).usd, b.inr + (incomeStep filt balStart t).inr⟩ := by
  unfold incomeStep
  split_ifs with h1
  · exact balAdd_shift b t.currency t.amount
  · cases b
    simp [balStart]

theorem expenseStep_shift (filt : Option String) (b : Balances) (t : Transaction) :
    expenseStep filt b t =
      ⟨b.usd + (expenseStep filt balStart t).usd, b.inr + (expenseStep filt balStart t).inr⟩ := by
  unfold expenseStep
  split_ifs with h1
  · exact balAdd_shift b t.currency t.amount
  · cases b
    simp [balStart]

theorem loopGo_shift (step : Balances → Transaction → Balances)
    (hstep : ∀ b t, step b t = ⟨b.usd + (step balStart t).usd, b.inr + (step balStart t).inr⟩)
    (l : List Transaction) :
    ∀ b : Balances,
      loopGo step b l = ⟨b.usd + (loopGo step balStart l).usd, b.inr + (loopGo step balStart l).inr⟩ := by
  induction l with
  | nil =>
      intro b
      show b = ({ usd := b.usd + balStart.usd, inr := b.inr + balStart.inr } : Balances)
      cases b
      simp [balStart]
  | cons t ts ih =>
      intro b
      rw [loopGo_cons, loopGo_cons, ih (step b t), ih (step balStart t), hstep b t]
      simp only [Balances.mk.injEq]
      constructor <;> ring

theorem step_identity (filt : Option String) (t : Transaction) :
    (balanceStep filt balStart t).usd =
        (incomeStep filt balStart t).usd - (expenseStep filt balStart t).usd ∧
    (balanceStep filt balStart t).inr =
        (incomeStep filt balStart t).inr - (expenseStep filt balStart t).inr := by
  unfold balanceStep incomeStep expenseStep
  by_cases h1 : curOk filt t.currency = true
  · by_cases h2 : t.is_income = true
    · simp [h1, h2, balAdd, balStart]
    · simp [h1, h2, balAdd, balStart]
      try constructor
      all_goals split_ifs <;> ring
  · simp only [Bool.not_eq_true] at h1
    simp [h1, balStart]

theorem go_identity (filt : Option String) (l : List Transaction) :
    (balanceGo filt balStart l).usd =
        (incomeGo filt balStart l).usd - (expenseGo filt balStart l).usd ∧
    (balanceGo filt balStart l).inr =
        (incomeGo filt balStart l).inr - (expenseGo filt balStart l).inr := by
  induction l with
  | nil => simp [balanceGo, incomeGo, expenseGo, loopGo, balStart]
  | cons t ts ih =>
      unfold balanceGo incomeGo expenseGo at ih ⊢
      rw [loopGo_cons, loopGo_cons, loopGo_cons,
          loopGo_shift _ (balanceStep_shift filt) ts (balanceStep filt balStart t),
          loopGo_shift _ (incomeStep_shift filt) ts (incomeStep filt balStart t),
          loopGo_shift _ (expenseStep_shift filt) ts (expenseStep filt balStart t)]
      have h1 := step_identity filt t
      constructor
      · show (balanceStep filt balStart t).usd + _ = _
        rw [h1.1, ih.1]
        ring
      · show (balanceStep filt balStart t).inr + _ = _
        rw [h1.2, ih.2]
        ring

theorem curOk_some_empty (cur : String) : curOk (some "") cur = true := rfl

theorem curOk_none_eq (cur : String) : curOk none cur = true := rfl

theorem balanceStep_empty_filter : balanceStep (some "") = balanceStep none := by
  funext b t
  unfold balanceStep
  rw [curOk_some_empty, curOk_none_eq]

theorem incomeStep_empty_filter : incomeStep (some "") = incomeStep none := by
  funext b t
  unfold incomeStep
  rw [curOk_some_empty, curOk_none_eq]

theorem expenseStep_empty_filter : expenseStep (some "") = expenseStep none := by
  funext b t
  unfold expenseStep
  rw [curOk_some_empty, curOk_none_eq]

end FinanceTracker

/-! ### Characterization of the Transaction constructor -/

theorem init_eq_ok_iff (a : ℚ) (d c : String) (inc : Bool) (dt : Option String)
    (now cur r : String) (t : Transaction) :
    Transaction.init a d c inc dt now cur r = .ok t ↔
      (¬ a ≤ 0 ∧ (pyStrip d).data.isEmpty = false ∧
       (pyTitle (pyStrip c)).data.isEmpty = false ∧
       ¬(pyUpper cur ≠ "USD" ∧ pyUpper cur ≠ "INR") ∧
       (pyTitle (pyStrip r)).data.isEmpty = false ∧
       t = { id := none, amount := a, description := pyStrip d,
             category := pyTitle (pyStrip c), is_income := inc,
             date := match dt with
               | some s => if s.data.isEmpty then now else s
               | none => now,
             currency := pyUpper cur, room := pyTitle (pyStrip r) }) := by
  unfold Transaction.init
  by_cases h1 : a ≤ 0
  · simp [h1]
  · by_cases h2 : (pyStrip d).data.isEmpty
    · simp [h1, h2]
    · by_cases h3 : (pyTitle (pyStrip c)).data.isEmpty
      · simp [h1, h2, h3]
      · by_cases h4 : pyUpper cur ≠ "USD" ∧ pyUpper cur ≠ "INR"
        · simp [h1, h2, h3, h4]
        · by_cases h5 : (pyTitle (pyStrip r)).data.isEmpty
          · simp [h1, h2, h3, h4, h5]
          · simp [h1, h2, h3, h4, h5]
            constructor
            · intro h
              exact h.symm
            · intro h
              exact h.symm

/-! ### Claims -/

/-- Claim C7: delete_transaction with an id that no stored transaction
carries returns found = false and leaves the transaction list unchanged in
length and contents. -/
theorem claim_C7_delete_not_found (ts : List Transaction) (tid : Int)
    (h : ∀ t ∈ ts, t.id ≠ some tid) :
    FinanceTracker.delete_transaction ts tid = (ts, false) := by
  induction ts with
  | nil => rfl
  | cons t ts ih =>
      have h1 : t.id ≠ some tid := h t (List.mem_cons_self t ts)
      have h2 := ih (fun u hu => h u (List.mem_cons_of_mem t hu))
      rw [FinanceTracker.delete_transaction, if_neg h1, h2]

/-- Witness for claim C7 at a concrete ledger and id. -/
theorem claim_C7_witness :
    FinanceTracker.delete_transaction [mkTx "a"] 5 = ([mkTx "a"], false) :=
  claim_C7_delete_not_found [mkTx "a"] 5 (by decide)

/-- Claim C10: an empty string room argument to get_transactions returns
all transactions, and an empty string currency argument to the three
aggregation methods behaves as no filter (both per-currency totals are
returned, as with None). -/
theorem claim_C10_empty_string_unfiltered (ts : List Transaction) (room : Option String) :
    FinanceTracker.get_transactions ts (some "") = ts ∧
    FinanceTracker.get_balance ts room (some "") =
      FinanceTracker.get_balance ts room none ∧
    FinanceTracker.get_total_income ts room (some "") =
      FinanceTracker.get_total_income ts room none ∧
    FinanceTracker.get_total_expenses ts room (some "") =
      FinanceTracker.get_total_expenses ts room none := by
  refine ⟨rfl, ?_, ?_, ?_⟩
  · unfold FinanceTracker.get_balance FinanceTracker.balanceGo
    rw [FinanceTracker.balanceStep_empty_filter]
    rfl
  · unfold FinanceTracker.get_total_income FinanceTracker.incomeGo
    rw [FinanceTracker.incomeStep_empty_filter]
    rfl
  · unfold FinanceTracker.get_total_expenses FinanceTracker.expenseGo
    rw [FinanceTracker.expenseStep_empty_filter]
    rfl

/-- Claim C9: get_rooms returns the sorted duplicate-free list of the room
values of the stored transactions, except that the empty ledger yields the
single default room Personal. -/
theorem claim_C9_rooms (ts : List Transaction) :
    (FinanceTracker.get_rooms ts).Sorted (· ≤ ·) ∧
    (FinanceTracker.get_rooms ts).Nodup ∧
    ∀ r : String, r ∈ FinanceTracker.get_rooms ts ↔
      (r ∈ ts.map Transaction.room ∨ (ts = [] ∧ r = "Personal")) := by
  by_cases hts : ts = []
  · subst hts
    refine ⟨?_, ?_, ?_⟩
    · show List.Sorted (· ≤ ·) ["Personal"]
      simp
    · show List.Nodup ["Personal"]
      simp
    · intro r
      show r ∈ ["Personal"] ↔ _
      simp
  · have hne : ((ts.map Transaction.room).dedup).isEmpty = false := by
      simp [List.dedup_eq_nil, hts]
    refine ⟨?_, ?_, ?_⟩
    · unfold FinanceTracker.get_rooms
      simp only [hne, Bool.false_eq_true, if_false]
      exact List.sorted_insertionSort _ _
    · unfold FinanceTracker.get_rooms
      simp only [hne, Bool.false_eq_true, if_false]
      have hperm := List.perm_insertionSort (α := String) (· ≤ ·) ((ts.map Transaction.room).dedup)
      exact hperm.nodup_iff.mpr (List.nodup_dedup _)
    · intro r
      unfold FinanceTracker.get_rooms
      simp only [hne, Bool.false_eq_true, if_false]
      rw [List.mem_insertionSort, List.mem_dedup]
      simp [hts]

/-- Witness for claim C9: the empty ledger yields the default room. -/
theorem claim_C9_witness : "Personal" ∈ FinanceTracker.get_rooms [] :=
  ((claim_C9_rooms []).2.2 "Personal").mpr (Or.inr ⟨rfl, rfl⟩)

/-- Counterexample to claim C1 as stated: after add, add, delete, the next
add reuses id 2, and get_transaction_by_id then returns the OLDER
transaction with that id, not the one just added. -/
theorem claim_C1_counterexample :
    (FinanceTracker.add_transaction
        (FinanceTracker.delete_transaction
          (FinanceTracker.add_transaction
            (FinanceTracker.add_transaction [] (mkTx "a")).1 (mkTx "b")).1 1).1
        (mkTx "c")).2.id = some 2 ∧
    FinanceTracker.get_transaction_by_id
        (FinanceTracker.add_transaction
          (FinanceTracker.delete_transaction
            (FinanceTracker.add_transaction
              (FinanceTracker.add_transaction [] (mkTx "a")).1 (mkTx "b")).1 1).1
          (mkTx "c")).1 2 ≠
      some (FinanceTracker.add_transaction
        (FinanceTracker.delete_transaction
          (FinanceTracker.add_transaction
            (FinanceTracker.add_transaction [] (mkTx "a")).1 (mkTx "b")).1 1).1
        (mkTx "c")).2 := by
  constructor
  · rfl
  · decide

/-- Claim C1 amended: adding a transaction and reading it back through
get_transaction_by_id with the assigned id len(ts) + 1 returns the added
transaction, provided no already stored transaction carries that id (in
particular after add-only histories); after deletions the new id can
collide with a stored one, and the earlier transaction is returned. -/
theorem claim_C1_add_then_get (ts : List Transaction) (t : Transaction)
    (h : ∀ u ∈ ts, u.id ≠ some ((ts.length : Int) + 1)) :
    (FinanceTracker.add_transaction ts t).2.id = some ((ts.length : Int) + 1) ∧
    FinanceTracker.get_transaction_by_id (FinanceTracker.add_transaction ts t).1
        ((ts.length : Int) + 1) =
      some (FinanceTracker.add_transaction ts t).2 := by
  constructor
  · rfl
  · simp only [FinanceTracker.get_transaction_by_id, FinanceTracker.add_transaction]
    rw [List.find?_append]
    have h1 : ts.find? (fun u => decide (u.id = some ((ts.length : Int) + 1))) = none := by
      rw [List.find?_eq_none]
      intro x hx
      simp only [decide_eq_true_eq]
      exact h x hx
    rw [h1]
    simp

/-- Witness for claim C1 on the empty ledger. -/
theorem claim_C1_witness :
    FinanceTracker.get_transaction_by_id
        (FinanceTracker.add_transaction [] (mkTx "a")).1 1 =
      some (FinanceTracker.add_transaction [] (mkTx "a")).2 :=
  (claim_C1_add_then_get [] (mkTx "a") (by decide)).2

/-- Claim C2 (id uniqueness) fails on the code: the state reached by add,
add, delete id 1, add is reachable and stores two transactions that both
carry id 2. -/
theorem claim_C2_id_collision :
    FinanceTracker.Reachable
      (FinanceTracker.add_transaction
        (FinanceTracker.delete_transaction
          (FinanceTracker.add_transaction
            (FinanceTracker.add_transaction [] (mkTx "a")).1 (mkTx "b")).1 1).1
        (mkTx "c")).1 ∧
    ((FinanceTracker.add_transaction
        (FinanceTracker.delete_transaction
          (FinanceTracker.add_transaction
            (FinanceTracker.add_transaction [] (mkTx "a")).1 (mkTx "b")).1 1).1
        (mkTx "c")).1).map Transaction.id = [some 2, some 2] ∧
    ¬ (((FinanceTracker.add_transaction
        (FinanceTracker.delete_transaction
          (FinanceTracker.add_transaction
            (FinanceTracker.add_transaction [] (mkTx "a")).1 (mkTx "b")).1 1).1
        (mkTx "c")).1).map Transaction.id).Nodup := by
  refine ⟨?_, by decide, by decide⟩
  exact .add _ _ (.delete _ _ (.add _ _ (.add _ _ .empty)))

theorem finishTotals_USD (b : FinanceTracker.Balances) :
    FinanceTracker.finishTotals b (some "USD") = [("USD", b.usd)] := rfl

theorem finishTotals_INR (b : FinanceTracker.Balances) :
    FinanceTracker.finishTotals b (some "INR") = [("INR", b.inr)] := rfl

theorem dictVal_single (k : String) (v : ℚ) : FinanceTracker.dictVal [(k, v)] k = v := by
  simp [FinanceTracker.dictVal, List.lookup]

/-- Counterexample to claim C3 as stated: the lowercase string usd differs
from both USD and INR, yet construction succeeds, because the constructor
uppercases the argument before the membership check. -/
theorem claim_C3_counterexample :
    ("usd" ≠ "USD" ∧ "usd" ≠ "INR") ∧
    (Transaction.init 1 "Lunch" "Food" false (some "2024-01-01T00:00:00")
        "2024-01-01T00:00:00" "usd" "Personal").isOk = true := by
  constructor
  · exact ⟨by decide, by decide⟩
  · decide

/-- Claim C3 amended: with the other arguments valid, construction succeeds
exactly when the uppercased currency argument is USD or INR (so usd, Inr
and the like are accepted as well; every string whose uppercase form is
neither fails). -/
theorem claim_C3_currency_accepted_iff (a : ℚ) (d c : String) (inc : Bool)
    (dt : Option String) (now cur r : String)
    (ha : ¬ a ≤ 0) (hd : (pyStrip d).data ≠ []) (hc : (pyStrip c).data ≠ [])
    (hr : (pyStrip r).data ≠ []) :
    (Transaction.init a d c inc dt now cur r).isOk = true ↔
      (pyUpper cur = "USD" ∨ pyUpper cur = "INR") := by
  constructor
  · intro h
    cases hinit : Transaction.init a d c inc dt now cur r with
    | error e =>
        rw [hinit] at h
        simp [Except.isOk, Except.toBool] at h
    | ok t =>
        have hchar := (init_eq_ok_iff a d c inc dt now cur r t).mp hinit
        have h4 := hchar.2.2.2.1
        tauto
  · intro h
    have hok := (init_eq_ok_iff a d c inc dt now cur r _).mpr
      ⟨ha, by simp [hd], by rw [pyTitle_data_isEmpty]; simp [hc],
       by rintro ⟨n1, n2⟩
          rcases h with h | h
          · exact n1 h
          · exact n2 h,
       by rw [pyTitle_data_isEmpty]; simp [hr], rfl⟩
    rw [hok]
    rfl

/-- Witness for the amended claim C3: usd uppercases to USD, so
construction succeeds. -/
theorem claim_C3_witness :
    (Transaction.init 1 "x" "Food" false none "now" "usd" "Personal").isOk = true :=
  (claim_C3_currency_accepted_iff 1 "x" "Food" false none "now" "usd" "Personal"
    (by norm_num) (by decide) (by decide) (by decide)).mpr (Or.inl (by decide))

/-- Counterexample to claim C4 as stated: the stored room Kitchen is the
title-cased normalization of the argument kitchen, yet get_transactions
with the non-title-cased argument matches nothing, because the filter
compares the raw argument. -/
theorem claim_C4_counterexample :
    pyTitle (pyStrip "kitchen") = "Kitchen" ∧
    ({ mkTx "x" with room := "Kitchen", id := some 1 } : Transaction).room =
      pyTitle (pyStrip "kitchen") ∧
    FinanceTracker.get_transactions
        [{ mkTx "x" with room := "Kitchen", id := some 1 }] (some "kitchen") = [] := by
  refine ⟨by decide, by decide, by decide⟩

/-- Claim C4 amended: a truthy room argument selects exactly the stored
transactions whose room field literally equals the argument; no title-case
normalization is applied to the argument (a None argument returns the
whole list). -/
theorem claim_C4_room_filter_literal (ts : List Transaction) (r : String)
    (hr : r ≠ "") :
    (∀ t : Transaction,
        t ∈ FinanceTracker.get_transactions ts (some r) ↔ (t ∈ ts ∧ t.room = r)) ∧
    FinanceTracker.get_transactions ts none = ts := by
  constructor
  · intro t
    have hdata : r.data ≠ [] := fun hnil => hr (by cases r; cases hnil; rfl)
    have hre : r.data.isEmpty = false := by simp [hdata]
    simp [FinanceTracker.get_transactions, hre, List.mem_filter]
  · rfl

/-- Witness for the amended claim C4 at a concrete ledger and room. -/
theorem claim_C4_witness :
    mkTx "a" ∈ FinanceTracker.get_transactions [mkTx "a"] (some "Personal") :=
  ((claim_C4_room_filter_literal [mkTx "a"] "Personal" (by decide)).1 (mkTx "a")).mpr
    ⟨List.mem_cons_self _ _, rfl⟩

/-- Claim C6: for each of the two tracked currencies, get_balance with a
currency filter returns the single-key dictionary whose value is the
filtered total income minus the filtered total expenses, for every ledger
state and every optional room filter. -/
theorem claim_C6_balance_identity (ts : List Transaction) (room : Option String)
    (c : String) (hc : c = "USD" ∨ c = "INR") :
    FinanceTracker.get_balance ts room (some c) =
      [(c, FinanceTracker.dictVal (FinanceTracker.get_total_income ts room (some c)) c -
           FinanceTracker.dictVal (FinanceTracker.get_total_expenses ts room (some c)) c)] := by
  rcases hc with rfl | rfl
  · unfold FinanceTracker.get_balance FinanceTracker.get_total_income
      FinanceTracker.get_total_expenses
    rw [finishTotals_USD, finishTotals_USD, finishTotals_USD, dictVal_single,
        dictVal_single,
        (FinanceTracker.go_identity (some "USD") (FinanceTracker.roomScope ts room)).1]
  · unfold FinanceTracker.get_balance FinanceTracker.get_total_income
      FinanceTracker.get_total_expenses
    rw [finishTotals_INR, finishTotals_INR, finishTotals_INR, dictVal_single,
        dictVal_single,
        (FinanceTracker.go_identity (some "INR") (FinanceTracker.roomScope ts room)).2]

/-- Witness for claim C6 at a concrete ledger. -/
theorem claim_C6_witness :
    FinanceTracker.get_balance [mkTx "a"] none (some "USD") =
      [("USD", FinanceTracker.dictVal (FinanceTracker.get_total_income [mkTx "a"] none (some "USD")) "USD" -
               FinanceTracker.dictVal (FinanceTracker.get_total_expenses [mkTx "a"] none (some "USD")) "USD")] :=
  claim_C6_balance_identity [mkTx "a"] none "USD" (Or.inl rfl)

/-- Claim C8: construction fails with the amount validation error for every
amount at most 0, and succeeds for every positive amount when description,
category and room are non-empty after stripping and the currency is USD or
INR. -/
theorem claim_C8_amount_validation (a : ℚ) (d c : String) (inc : Bool)
    (dt : Option String) (now cur r : String) :
    (a ≤ 0 → Transaction.init a d c inc dt now cur r = .error "Amount must be positive") ∧
    (0 < a → (pyStrip d).data ≠ [] → (pyStrip c).data ≠ [] →
      (cur = "USD" ∨ cur = "INR") → (pyStrip r).data ≠ [] →
      (Transaction.init a d c inc dt now cur r).isOk = true) := by
  constructor
  · intro h
    unfold Transaction.init
    rw [if_pos h]
  · intro ha hd hc hcur hr
    have hok := (init_eq_ok_iff a d c inc dt now cur r _).mpr
      ⟨not_le.mpr ha, by simp [hd], by rw [pyTitle_data_isEmpty]; simp [hc],
       by rintro ⟨n1, n2⟩
          rcases hcur with rfl | rfl
          · exact n1 (by decide)
          · exact n2 (by decide),
       by rw [pyTitle_data_isEmpty]; simp [hr], rfl⟩
    rw [hok]
    rfl

/-- Witness for claim C8: a negative amount is rejected and a positive one
accepted, with the other arguments fixed and valid. -/
theorem claim_C8_witness :
    Transaction.init (-3) "x" "Food" false none "now" "USD" "Personal" =
      .error "Amount must be positive" ∧
    (Transaction.init 2 "x" "Food" false none "now" "USD" "Personal").isOk = true :=
  ⟨(claim_C8_amount_validation (-3) "x" "Food" false none "now" "USD" "Personal").1
      (by norm_num),
   (claim_C8_amount_validation 2 "x" "Food" false none "now" "USD" "Personal").2
      (by norm_num) (by decide) (by decide) (Or.inl rfl) (by decide)⟩

/-- Claim C5: serializing a validly constructed transaction with to_dict
and deserializing with from_dict reproduces every field, and the id is
preserved exactly when present (ledger-assigned ids are nonzero); the
deserialization date default never fires because stored dates are
non-empty. -/
theorem claim_C5_roundtrip (a : ℚ) (d c : String) (inc : Bool) (dt : Option String)
    (now cur r : String) (t : Transaction)
    (h : Transaction.init a d c inc dt now cur r = .ok t)
    (hnow : now ≠ "")
    (oid : Option Int) (hid : oid = none ∨ ∃ k : Int, oid = some k ∧ k ≠ 0)
    (now2 : String) :
    Transaction.from_dict (Transaction.to_dict { t with id := oid }) now2 =
      .ok ({ t with id := oid } : Transaction) := by
  obtain ⟨h1, h2, h3, h4, h5, ht⟩ := (init_eq_ok_iff a d c inc dt now cur r t).mp h
  have hcur : pyUpper cur = "USD" ∨ pyUpper cur = "INR" := by tauto
  have hupper : pyUpper (pyUpper cur) = pyUpper cur := by
    rcases hcur with he | he <;> rw [he] <;> decide
  obtain ⟨tid, ta, td, tc, ti, tdt, tcu, tr⟩ := t
  simp only [Transaction.mk.injEq] at ht
  obtain ⟨_, e2, e3, e4, e5, e6, e7, e8⟩ := ht
  have hDne : tdt.data.isEmpty = false := by
    rw [e6]
    have hnowne : now.data.isEmpty = false := by
      have hn : now.data ≠ [] := fun hnil => hnow (by cases now; cases hnil; rfl)
      simp [hn]
    cases dt with
    | none => exact hnowne
    | some s =>
        show (if s.data.isEmpty then now else s).data.isEmpty = false
        by_cases hs : s.data.isEmpty
        · rw [if_pos hs]
          exact hnowne
        · rw [if_neg hs]
          simpa using hs
  have hinner : Transaction.init ta td tc ti (some tdt) now2 tcu tr =
      .ok (Transaction.mk none ta td tc ti tdt tcu tr) := by
    refine (init_eq_ok_iff _ _ _ _ _ _ _ _ _).mpr
      ⟨by rw [e2]; exact h1,
       by rw [e3, pyStrip_idem]; exact h2,
       by rw [e4, title_strip_idem]; exact h3,
       by rw [e7, hupper]; exact h4,
       by rw [e8, title_strip_idem]; exact h5,
       ?_⟩
    rw [e3, e4, e7, e8, pyStrip_idem, title_strip_idem, title_strip_idem, hupper]
    simp [hDne]
  rcases hid with rfl | ⟨k, rfl, hk⟩
  · simp only [Transaction.from_dict, Transaction.to_dict]
    rw [hinner]
  · simp only [Transaction.from_dict, Transaction.to_dict]
    rw [hinner]
    show Except.ok (if k ≠ 0 then _ else _) = _
    rw [if_pos hk]

/-- Witness for claim C5 at a concrete constructed transaction with an
attached id. -/
theorem claim_C5_witness :
    Transaction.from_dict
        (Transaction.to_dict
          (Transaction.mk (some 1) 1 "Lunch" "Food" false "D" "USD" "Personal")) "Z" =
      .ok (Transaction.mk (some 1) 1 "Lunch" "Food" false "D" "USD" "Personal") :=
  claim_C5_roundtrip 1 "Lunch" "Food" false (some "D") "N" "USD" "Personal"
    (Transaction.mk none 1 "Lunch" "Food" false "D" "USD" "Personal")
    rfl (by decide) (some 1) (Or.inr ⟨1, rfl, by decide⟩) "Z"
